import Mathlib

/- Shallow embedding of the handin240 grading utilities (`utils.py`,
   `admin.py`): the `Operation` check pipeline (existence, interface,
   compilation), wildcard resolution, config-record parsing, the batch
   helpers `doOpArray` / `checkStudent`, and the report formatters.

   External effects are abstracted into an explicit environment `Env`:
   `os.path.exists` becomes `pathExists`, `glob.glob` becomes `globMatch`,
   the `svinterface.checkInterface` comparator becomes `compareInterface`,
   and `subprocess.check_output` becomes `run` (whose result distinguishes
   success, `CalledProcessError`, and `KeyboardInterrupt`).  Console
   `print` calls are not modelled except where the printed text is built
   in a local variable (`toPrint` in the interface check), which is
   returned so that the reported text can be reasoned about. -/

namespace Handin240

/-- Return values and error codes from the top of `utils.py`. -/
def HANDIN_YES : Nat := 0

def HANDIN_NO : Nat := 1

def ERR_NOCONFIG : Nat := 100

def ERR_BADCONFIG : Nat := 101

def ERR_OPERATION : Nat := 200

def ERR_NOEXIST : Nat := 201

def ERR_BADINTERF : Nat := 204

def ERR_NOCOMPILE : Nat := 202

def ERR_FAILTEST : Nat := 203

def ERR_HANDIN_DIR : Nat := 210

def ERR_HANDIN_PERM : Nat := 211

def ERR_UNKNOWN : Nat := 255

/-- Concatenation of a list of strings; models Python string `+=`
accumulation across a loop. -/
def strConcat : List String → String
  | [] => ""
  | s :: rest => s ++ strConcat rest

/-- Boolean test for whether one char list begins with another
(the pattern is the second argument). -/
def listStartsWith : List Char → List Char → Bool
  | _, [] => true
  | [], _ :: _ => false
  | a :: as, b :: bs => a = b && listStartsWith as bs

/-- Worker for `strReplace`: scans left to right; a positive `skip`
count consumes characters already covered by a replaced match. -/
def replaceGo (pat rep : List Char) : List Char → Nat → List Char
  | [], _ => []
  | _ :: rest, Nat.succ skip => replaceGo pat rep rest skip
  | c :: rest, 0 =>
    if pat.isEmpty = false ∧ listStartsWith (c :: rest) pat = true
    then rep ++ replaceGo pat rep rest (pat.length - 1)
    else c :: replaceGo pat rep rest 0

/-- Python `str.replace(pat, rep)`: replace every non-overlapping
occurrence, scanning left to right.  (The empty-pattern corner case
is never exercised here: every pattern used has length at least 1.) -/
def strReplace (s pat rep : String) : String :=
  String.mk (replaceGo pat.data rep.data s.data 0)

/-- Python `"*" in f` for the single-character wildcard marker. -/
def hasStar (f : String) : Bool := f.data.contains '*'

/-- Python `os.path.isabs` on POSIX: the path starts with `/`. -/
def isAbs (f : String) : Bool :=
  match f.data with
  | '/' :: _ => true
  | _ => false

/-- Python `s * n` for strings with an `Int` count: the empty string
when the count is not positive. -/
def pyRepeat (s : String) (n : Int) : String :=
  strConcat (List.replicate n.toNat s)

/-- Lexicographic comparison of char lists by code point; the order
Python `sorted` uses on `str` values. -/
def charListLe : List Char → List Char → Bool
  | [], _ => true
  | _ :: _, [] => false
  | a :: as, b :: bs =>
    if a.toNat < b.toNat then true
    else if b.toNat < a.toNat then false
    else charListLe as bs

/-- String comparison used by `sorted` on file names. -/
def strLe (a b : String) : Bool := charListLe a.data b.data

/-- Insertion step of insertion sort with respect to `strLe`. -/
def insertSorted (a : String) : List String → List String
  | [] => [a]
  | b :: bs => if strLe a b then a :: b :: bs else b :: insertSorted a bs

/-- Insertion sort with respect to `strLe`; extensionally Python's
`sorted` on a list of strings. -/
def sortList : List String → List String
  | [] => []
  | a :: as => insertSorted a (sortList as)

/-- Python `sorted(list(set(xs)))`: the duplicate-free sorted enumeration
of the elements of `xs`. -/
def pySortedSet (xs : List String) : List String := sortList xs.dedup

namespace bcolors

def HEADER : String := "\x1b[95m"

def OKBLUE : String := "\x1b[94m"

def OKGREEN : String := "\x1b[92m"

def WARNING : String := "\x1b[33m"

def FAIL : String := "\x1b[91m"

def ENDC : String := "\x1b[0m"

def BOLD : String := "\x1b[1m"

def UNDERLINE : String := "\x1b[4m"

/-- `bcolors.stripFormatting`: removes every ANSI decoration sequence
from the text, in the same replacement order as the source. -/
def stripFormatting (s : String) : String :=
  let c := strReplace s HEADER ""
  let c := strReplace c OKBLUE ""
  let c := strReplace c OKGREEN ""
  let c := strReplace c WARNING ""
  let c := strReplace c FAIL ""
  let c := strReplace c ENDC ""
  let c := strReplace c BOLD ""
  strReplace c UNDERLINE ""

end bcolors

/-- `pathlib.Path(f).with_suffix('')` applied to the reversed basename:
finds the last `.` of the original basename; it only counts as a suffix
when it is neither the first nor the last character (`j` is the number
of characters after that dot). -/
def dropAfterLastDotAux : List Char → Nat → Option (List Char)
  | [], _ => none
  | c :: rest, j =>
    if c = '.' then (if j = 0 ∨ rest.isEmpty then none else some rest)
    else dropAfterLastDotAux rest (j + 1)

/-- `str(pathlib.Path(f).with_suffix(''))` as used by the interface
check: strips the final extension of the last path component. -/
def withSuffixEmpty (f : String) : String :=
  let revCs := f.data.reverse
  let revBase := revCs.takeWhile (· ≠ '/')
  let revDir := revCs.dropWhile (· ≠ '/')
  let newRevBase :=
    match dropAfterLastDotAux revBase 0 with
    | none => revBase
    | some r => r
  String.mk (revDir.reverse ++ newRevBase.reverse)

/-- Result of one `subprocess.check_output` invocation: success with
captured output, `CalledProcessError` carrying `e.output`, or a
`KeyboardInterrupt` raised during the call. -/
inductive ToolOut where
  | ok (out : String)
  | fail (out : String)
  | interrupt
deriving DecidableEq

/-- The ambient process environment of one pipeline run: the current
working directory, the filesystem, globbing, the external interface
comparator, and the external toolchain runner (argv list in, result
out).  `tempDir` is the fresh directory `tempfile.mkdtemp` returns. -/
structure Env where
  cwd : String
  pathExists : String → Bool
  globMatch : String → List String
  compareInterface : String → String → Option (List String) → String
  run : List String → ToolOut
  tempDir : String

/-- The `Operation` record (`utils.py`): per-problem configuration plus
the transient error state `hasErrors` / `err`.  Fields the constructor
initialises to Python `None` are `Option`s. -/
structure Operation where
  number : Option Int
  existFiles : Option (List String)
  compileFiles : Option (List String)
  testFiles : Option (List String)
  specificModules : Option (List String)
  refFilePath : Option String
  hasErrors : Bool
  err : String
  useWildcard : Bool
  skipCompile : Bool
  silent : Bool
deriving DecidableEq

/-- `Operation.__init__`. -/
def Operation.init (refFilePath : Option String) (skipCompile silent : Bool) : Operation :=
  { number := none, existFiles := none, compileFiles := none,
    testFiles := none, specificModules := none, refFilePath := refFilePath,
    hasErrors := false, err := "", useWildcard := false,
    skipCompile := skipCompile, silent := silent }

/-- `Operation.clearErrors`. -/
def Operation.clearErrors (op : Operation) : Operation :=
  { op with hasErrors := false, err := "" }

/-- `Operation.getOpError` (the method never reads `self`): formatted
per-file error message selected by the error code. -/
def getOpError (mainFile : String) (errType : Nat) : String :=
  let errMessage :=
    if errType = ERR_NOEXIST then "file does not exist"
    else if errType = ERR_NOCOMPILE then "failed to compile"
    else if errType = ERR_FAILTEST then "failed TA testbench"
    else if errType = ERR_BADINTERF then "incorrect interface"
    else "unspecified error"
  mainFile ++ ": " ++ bcolors.FAIL ++ errMessage ++ bcolors.ENDC

/-- One entry of a file list under wildcard resolution: a glob pattern
expands via `glob.glob`, a literal passes through as a singleton. -/
def expandEntry (env : Env) (f : String) : List String :=
  if hasStar f then env.globMatch f else [f]

/-- `Operation.checkWildcard`: each of `existFiles` and `compileFiles`
(when not `None`) is rebuilt as the sorted duplicate-free union of its
expanded entries; only a wildcard among `existFiles` sets
`useWildcard`. -/
def Operation.checkWildcard (op : Operation) (env : Env) : Operation :=
  let op1 :=
    match op.existFiles with
    | none => op
    | some fs =>
      { op with
        useWildcard := op.useWildcard || fs.any (fun f => hasStar f),
        existFiles := some (pySortedSet (fs.flatMap (expandEntry env))) }
  match op1.compileFiles with
  | none => op1
  | some fs =>
    { op1 with compileFiles := some (pySortedSet (fs.flatMap (expandEntry env))) }

/-- One key of a raw problem record: missing from the dict, explicitly
`null`, or carrying a value. -/
inductive Field (α : Type) where
  | absent
  | null
  | val (a : α)
deriving DecidableEq

/-- Python `p["k"]` on a dict: a missing key raises `KeyError`; `null`
maps to `None`. -/
def Field.get {α : Type} : Field α → Except String (Option α)
  | .absent => Except.error "KeyError"
  | .null => Except.ok none
  | .val a => Except.ok (some a)

/-- One raw problem record of the parsed config JSON, with the five keys
`Operation.parseProblem` reads. -/
structure RawProblem where
  number : Field Int
  files : Field (List String)
  compileFiles : Field (List String)
  testFiles : Field (List String)
  specificModules : Field (List String)

/-- `Operation.parseProblem`: reads the five keys in source order (each
access can raise `KeyError`), sets the attribute when the value is not
`None`, then runs `checkWildcard`. -/
def Operation.parseProblem (op : Operation) (p : RawProblem) (env : Env) :
    Except String Operation := do
  let v ← p.number.get
  let op := match v with | some x => { op with number := some x } | none => op
  let v ← p.files.get
  let op := match v with | some x => { op with existFiles := some x } | none => op
  let v ← p.compileFiles.get
  let op := match v with | some x => { op with compileFiles := some x } | none => op
  let v ← p.testFiles.get
  let op := match v with | some x => { op with testFiles := some x } | none => op
  let v ← p.specificModules.get
  let op := match v with | some x => { op with specificModules := some x } | none => op
  pure (op.checkWildcard env)

/-- Loop body of `Operation.checkExistence` over `existFiles`: a file
missing at `./f` sets `hasErrors` and appends the `ERR_NOEXIST`
diagnostic line to `err`.  (The `badFileMsg` accumulator is only
printed, never stored, and is not modelled.) -/
def existLoop (env : Env) (op : Operation) : List String → Operation
  | [] => op
  | f :: fs =>
    if env.pathExists ("./" ++ f)
    then existLoop env op fs
    else
      existLoop env
        { op with hasErrors := true,
                  err := op.err ++ getOpError f ERR_NOEXIST ++ "\n" } fs

/-- `Operation.checkExistence`. -/
def Operation.checkExistence (op : Operation) (env : Env) : Operation :=
  match op.existFiles with
  | none => op
  | some fs => existLoop env op fs

/-- The reference-artifact path the interface check derives for a file
given the reference root: `"{refFilePath}/{fNoExt}_ref.sv"` (Python
formats a `None` reference root as the string `"None"`). -/
def ifaceRef (rfp : Option String) (f : String) : String :=
  (rfp.getD "None") ++ "/" ++ withSuffixEmpty f ++ "_ref.sv"

/-- The reference-artifact path for a file of this operation. -/
def refPathFor (op : Operation) (f : String) : String :=
  ifaceRef op.refFilePath f

/-- Loop body of `Operation.checkInterface` over `existFiles`.  Returns
the updated operation, the `toPrint` report text, and the list of
`(refFile, testFile)` comparator invocations.  A file whose reference
artifact does not exist is skipped (`continue`); a non-empty comparator
result sets `hasErrors` and appends the diagnostic plus the comparator
detail to `err`; a match appends the match line to `toPrint` only. -/
def interfaceLoop (env : Env) (op : Operation) :
    List String → Operation × String × List (String × String)
  | [] => (op, "", [])
  | f :: fs =>
    let refFile := refPathFor op f
    let testFile := "./" ++ f
    if env.pathExists refFile then
      let compareResult := env.compareInterface refFile testFile op.specificModules
      if compareResult ≠ "" then
        let op' :=
          { op with hasErrors := true,
                    err := op.err ++ getOpError f ERR_BADINTERF ++ "\n" ++
                           compareResult ++ "\n" }
        let r := interfaceLoop env op' fs
        (r.1, (getOpError f ERR_BADINTERF ++ "\n") ++ r.2.1, (refFile, testFile) :: r.2.2)
      else
        let r := interfaceLoop env op fs
        (r.1, (f ++ ": interface matches reference, good") ++ r.2.1,
         (refFile, testFile) :: r.2.2)
    else interfaceLoop env op fs

/-- `Operation.checkInterface`: skipped entirely for lab problems
(`number < 0`); otherwise compares each exist file that has a reference
artifact.  (`op.number` is always set when this runs in the pipeline;
a `None` number would raise in Python and is mapped to `0` here.) -/
def Operation.checkInterface (op : Operation) (env : Env) :
    Operation × String × List (String × String) :=
  if op.number.getD 0 < 0 then (op, "", [])
  else
    match op.existFiles with
    | none => (op, "", [])
    | some fs => interfaceLoop env op fs

/-- `Operation.removeOldDir` (the method never reads `self`): joins the
file list with `", "` and deletes every occurrence of `oldDir + "/"`. -/
def removeOldDir (fileList : List String) (oldDir : String) : String :=
  strReplace (String.intercalate ", " fileList) (oldDir ++ "/") ""

/-- `Operation.compilationErrHandler`: marks the failure and appends the
`ERR_NOCOMPILE` diagnostic followed by the captured tool output. -/
def Operation.compilationErrHandler (op : Operation) (fileList : List String)
    (oldDir : String) (errOutput : String) : Operation :=
  { op with hasErrors := true,
            err := op.err ++ getOpError (removeOldDir fileList oldDir) ERR_NOCOMPILE ++
                   "\n" ++ errOutput ++ "\n" }

/-- The compile-file list resolved against the original directory:
absolute paths pass through, relative ones are prefixed with
`oldDir + "/"`. -/
def mkFileList (fs : List String) (oldDir : String) : List String :=
  fs.map (fun f => if isAbs f then f else oldDir ++ "/" ++ f)

/-- The per-module `vcs` command of the specific-modules branch. -/
def vcsModuleCmd (m : String) : List String :=
  ["vcs", "-q", "-sverilog", "-nc", m]

/-- The analysis command of the specific-modules branch. -/
def vloganCmd (fileList : List String) : List String :=
  ["vlogan", "-q", "-sverilog", "-nc"] ++ fileList

/-- The whole-file `vcs` command of the default branch. -/
def vcsAllCmd (fileList : List String) : List String :=
  ["vcs", "-q", "-sverilog", "-nc"] ++ fileList

/-- The per-module loop of `Operation.checkCompilation`: one `vcs`
invocation per module; a `CalledProcessError` is handled and the loop
continues, a `KeyboardInterrupt` stops the loop and propagates (third
component `true`).  Returns (operation, commands run, interrupted). -/
def runModules (env : Env) (fileList : List String) (oldDir : String)
    (op : Operation) : List String → Operation × List (List String) × Bool
  | [] => (op, [], false)
  | m :: ms =>
    match env.run (vcsModuleCmd m) with
    | .interrupt => (op, [vcsModuleCmd m], true)
    | .fail out =>
      let r := runModules env fileList oldDir
        (op.compilationErrHandler fileList oldDir out) ms
      (r.1, vcsModuleCmd m :: r.2.1, r.2.2)
    | .ok _ =>
      let r := runModules env fileList oldDir op ms
      (r.1, vcsModuleCmd m :: r.2.1, r.2.2)

/-- Outcome of `Operation.checkCompilation`: the resulting operation,
the toolchain commands that were run, the working directory after the
`finally` block, whether the temporary build directory was removed, and
whether a `KeyboardInterrupt` propagates to the caller. -/
structure CompResult where
  op : Operation
  events : List (List String)
  finalCwd : String
  tempRemoved : Bool
  interrupted : Bool
deriving DecidableEq

/-- `Operation.checkCompilation`: records the old directory, resolves
the compile-file list against it, works inside a fresh temporary
directory, and on every exit path (normal return, handled compile
failure, re-raised `KeyboardInterrupt`) the `finally` block restores the
old directory and removes the temporary one.  (The pipeline only calls
this with `compileFiles` set; on `None` Python would raise before doing
anything, modelled as an empty run.) -/
def Operation.checkCompilation (op : Operation) (env : Env) : CompResult :=
  let oldDir := env.cwd
  match op.compileFiles with
  | none => { op := op, events := [], finalCwd := oldDir, tempRemoved := true,
              interrupted := false }
  | some fs =>
    let fileList := mkFileList fs oldDir
    match op.specificModules with
    | some mods =>
      match env.run (vloganCmd fileList) with
      | .interrupt =>
        { op := op, events := [vloganCmd fileList], finalCwd := oldDir,
          tempRemoved := true, interrupted := true }
      | .fail out =>
        { op := op.compilationErrHandler fileList oldDir out,
          events := [vloganCmd fileList], finalCwd := oldDir,
          tempRemoved := true, interrupted := false }
      | .ok _ =>
        let r := runModules env fileList oldDir op mods
        { op := r.1, events := vloganCmd fileList :: r.2.1, finalCwd := oldDir,
          tempRemoved := true, interrupted := r.2.2 }
    | none =>
      match env.run (vcsAllCmd fileList) with
      | .interrupt =>
        { op := op, events := [vcsAllCmd fileList], finalCwd := oldDir,
          tempRemoved := true, interrupted := true }
      | .fail out =>
        { op := op.compilationErrHandler fileList oldDir out,
          events := [vcsAllCmd fileList], finalCwd := oldDir,
          tempRemoved := true, interrupted := false }
      | .ok _ =>
        { op := op, events := [vcsAllCmd fileList], finalCwd := oldDir,
          tempRemoved := true, interrupted := false }

/-- Outcome of `Operation.do`: the returned string, the operation state
after the run, the toolchain commands that were run, and whether a
`KeyboardInterrupt` propagated (in which case Python returns nothing
and `out` is meaningless). -/
structure DoResult where
  out : String
  op : Operation
  events : List (List String)
  interrupted : Bool
deriving DecidableEq

/-- The compilation guard and final return of `do()` (its third `if`
block): runs `checkCompilation` unless compilation is skipped or there
are no compile files, returning `err + "\n"` on a recorded failure and
`""` otherwise; an interrupt raised inside propagates. -/
def doCompileStage (op2 : Operation) (env : Env) : DoResult :=
  if (!op2.skipCompile) && op2.compileFiles.isSome then
    if (op2.checkCompilation env).interrupted then
      { out := "", op := (op2.checkCompilation env).op,
        events := (op2.checkCompilation env).events, interrupted := true }
    else if (op2.checkCompilation env).op.hasErrors then
      { out := (op2.checkCompilation env).op.err ++ "\n",
        op := (op2.checkCompilation env).op,
        events := (op2.checkCompilation env).events, interrupted := false }
    else
      { out := "", op := (op2.checkCompilation env).op,
        events := (op2.checkCompilation env).events, interrupted := false }
  else { out := "", op := op2, events := [], interrupted := false }

/-- The interface guard of `do()` (its second `if` block): runs
`checkInterface` when a reference root is configured, returning
`err + "\n"` when it flagged an error, and falling through to the
compilation stage otherwise. -/
def doInterfaceStage (op1 : Operation) (env : Env) : DoResult :=
  if op1.refFilePath.isSome then
    if (op1.checkInterface env).1.hasErrors then
      { out := (op1.checkInterface env).1.err ++ "\n",
        op := (op1.checkInterface env).1, events := [], interrupted := false }
    else doCompileStage (op1.checkInterface env).1 env
  else doCompileStage op1 env

/-- `Operation.do`: runs the existence, interface, and compilation
stages in order; each stage's guard and early `hasErrors` return are
nested exactly as in the source. -/
def Operation.doOp (op : Operation) (env : Env) : DoResult :=
  if op.existFiles.isSome then
    if (op.checkExistence env).hasErrors then
      { out := (op.checkExistence env).err ++ "\n",
        op := op.checkExistence env, events := [], interrupted := false }
    else doInterfaceStage (op.checkExistence env) env
  else doInterfaceStage op env

/-- `"Problem {}".format(op.number)`: Python `str` of the number
(`"None"` for an unset one). -/
def formatNumber : Option Int → String
  | none => "None"
  | some n => toString n

/-- `writeHeaderLine`: one 80-column banner line with the text centred
between `*` borders; `filled` selects `*` or blank filler.  Lengths are
`Int`s with Python floor division, and a negative repeat count yields
the empty string, exactly as in Python. -/
def writeHeaderLine (header : String) (filled : Bool) : String :=
  let headerLen : Int := 80
  let maxLen : Int := headerLen - 2
  let header := " " ++ header ++ " "
  let remaining : Int := maxLen - (header.length : Int)
  let firstHalf : Int := Int.fdiv remaining 2
  let secondHalf : Int := remaining - firstHalf
  let filler := if filled then "*" else " "
  "*" ++ pyRepeat filler firstHalf ++ header ++ pyRepeat filler secondHalf ++ "*" ++ "\n"

/-- `getOutputHeader`: the four-line report header naming the homework
and the student. -/
def getOutputHeader (studentID hwNum : String) : String :=
  let headerLine := pyRepeat "*" 80 ++ "\n"
  headerLine ++ writeHeaderLine ("18240: " ++ hwNum) false ++
    writeHeaderLine ("Error log for: " ++ studentID) false ++ headerLine

/-- The text `createErrLog` persists: the log contents with all
decoration stripped. -/
def createErrLogContents (contents : String) : String :=
  bcolors.stripFormatting contents

/-- The per-problem report block `doOpArray` (and `checkStudent`) adds
for an operation: nothing when the run passed, otherwise the filled
`Problem n` header line followed by the text `do()` returned. -/
def opReport (env : Env) (op : Operation) : String :=
  let r := (op.clearErrors).doOp env
  if r.op.hasErrors then
    writeHeaderLine ("Problem " ++ formatNumber op.number) true ++ r.out
  else ""

/-- Loop of `doOpArray`: clears each operation's error state, collects
the exist/compile files, runs `do()`, and accumulates the per-problem
report blocks.  A propagating `KeyboardInterrupt` aborts the whole call
(`none`). -/
def doOpArrayLoop (env : Env) :
    List Operation → Finset String → Bool → String →
    Option (Finset String × Bool × String)
  | [], files, he, errTot => some (files, he, errTot)
  | op :: rest, files, he, errTot =>
    if ((op.clearErrors).doOp env).interrupted then none
    else if ((op.clearErrors).doOp env).op.hasErrors then
      doOpArrayLoop env rest
        (files ∪ (op.existFiles.getD []).toFinset ∪ (op.compileFiles.getD []).toFinset)
        true
        (errTot ++ writeHeaderLine ("Problem " ++ formatNumber op.number) true ++
          ((op.clearErrors).doOp env).out)
    else
      doOpArrayLoop env rest
        (files ∪ (op.existFiles.getD []).toFinset ∪ (op.compileFiles.getD []).toFinset)
        he errTot

/-- `doOpArray`: runs every operation, returning the set of files to
submit, whether any problem failed, and the accumulated error text. -/
def doOpArray (opArray : List Operation) (env : Env) :
    Option (Finset String × Bool × String) :=
  doOpArrayLoop env opArray ∅ false ""

/-- The filesystem action on `errors.log` that ends `checkStudent`:
write the stripped report, remove a stale log, or leave it alone. -/
inductive LogAction where
  | write (contents : String)
  | remove
  | keep
deriving DecidableEq

/-- Result of `checkStudent` for one student. -/
structure StudentCheck where
  hasAnyErrors : Bool
  personalOutput : String
  logAction : LogAction
deriving DecidableEq

/-- Loop of `checkStudent` over the operation array (same body as
`doOpArrayLoop` without the file collection). -/
def checkStudentLoop (env : Env) :
    List Operation → String → Bool → Option (String × Bool)
  | [], acc, he => some (acc, he)
  | op :: rest, acc, he =>
    if ((op.clearErrors).doOp env).interrupted then none
    else if ((op.clearErrors).doOp env).op.hasErrors then
      checkStudentLoop env rest
        (acc ++ writeHeaderLine ("Problem " ++ formatNumber op.number) true ++
          ((op.clearErrors).doOp env).out) true
    else checkStudentLoop env rest acc he

/-- `checkStudent` (`admin.py`): builds the personal report header, runs
every operation inside the student's directory (`env` is the view from
that directory), then writes `errors.log` when anything failed and
removes a stale `errors.log` when everything passed.  `errLogExists`
says whether `./errors.log` existed beforehand; a propagating
`KeyboardInterrupt` yields `none` (no log action happens). -/
def checkStudent (studentDir : String) (opArray : List Operation) (hwNum : String)
    (env : Env) (errLogExists : Bool) : Option StudentCheck :=
  match checkStudentLoop env opArray (getOutputHeader studentDir hwNum) false with
  | none => none
  | some (out, he) =>
    some { hasAnyErrors := he, personalOutput := out,
           logAction :=
             if he then LogAction.write (createErrLogContents out)
             else if errLogExists then LogAction.remove
             else LogAction.keep }

/-- Whether `./errors.log` exists after a `LogAction`, given whether it
existed before. -/
def errLogAfter (before : Bool) : LogAction → Bool
  | .write _ => true
  | .remove => false
  | .keep => before

/-- The set of exist/compile files `doOpArray` accumulates over an
operation array. -/
def opsFiles : List Operation → Finset String
  | [] => ∅
  | op :: rest =>
    ((op.existFiles.getD []).toFinset ∪ (op.compileFiles.getD []).toFinset) ∪
      opsFiles rest

/- ------------------------------------------------------------------ -/
/- Concrete environments, operations, and config records used to       -/
/- instantiate the theorems on closed inputs.                          -/
/- ------------------------------------------------------------------ -/

/-- A quiescent environment: every path exists, globs are empty, the
comparator always matches, every tool invocation succeeds. -/
def envOk : Env :=
  { cwd := "/afs/course", pathExists := fun _ => true, globMatch := fun _ => [],
    compareInterface := fun _ _ _ => "", run := fun _ => ToolOut.ok "",
    tempDir := "/tmp/build0" }

/-- Like `envOk` but the student's `a.sv` is missing. -/
def envMissingA : Env :=
  { envOk with pathExists := fun p => !(p == "./a.sv") }

/-- Like `envOk` but the comparator reports a mismatch against the
reference for `a.sv` and a match everywhere else. -/
def envIfaceBad : Env :=
  { envOk with
    compareInterface := fun ref _ _ =>
      if ref == "ref/a_ref.sv" then "input w expected [3:0], got [7:0]" else "" }

/-- Like `envOk` but the pattern `*.sv` matches two concrete files. -/
def envGlob : Env :=
  { envOk with globMatch := fun p => if p == "*.sv" then ["a.sv", "b.sv"] else [] }

/-- Like `envOk` but every `vcs` invocation fails while `vlogan`
succeeds. -/
def envVcsFails : Env :=
  { envOk with
    run := fun cmd =>
      if cmd.head? == some "vcs" then ToolOut.fail "vcs: error" else ToolOut.ok "" }

/-- An operation with nothing configured. -/
def opPlain : Operation := Operation.init none false false

/-- Problem 1 requiring only that `a.sv` exists. -/
def opExistA : Operation :=
  { Operation.init none false false with
    number := some 1,
    existFiles := some ["a.sv"] }

/-- Problem 1 with two exist files and a configured reference root. -/
def opIfaceTwo : Operation :=
  { Operation.init (some "ref") false true with
    number := some 1,
    existFiles := some ["a.sv", "b.sv"] }

/-- Problem 3 with a wildcard exist entry, a literal exist entry, and a
wildcard compile entry. -/
def opGlobOp : Operation :=
  { Operation.init none false false with
    number := some 3,
    existFiles := some ["*.sv", "z.sv"],
    compileFiles := some ["*.sv"] }

/-- Problem 4 compiled in per-module mode with two named modules. -/
def opModules : Operation :=
  { Operation.init none false false with
    number := some 4,
    compileFiles := some ["x.sv"],
    specificModules := some ["top", "alu"] }

/-- A lab problem (negative number) with a configured reference root. -/
def opLab : Operation :=
  { Operation.init (some "ref") false false with
    number := some (-1),
    existFiles := some ["lab.sv"] }

/-- A raw config record whose `number` key is missing entirely. -/
def rawAbsentNumber : RawProblem :=
  { number := Field.absent, files := Field.null, compileFiles := Field.null,
    testFiles := Field.null, specificModules := Field.null }

/-- A raw config record with all five keys present but `null`. -/
def rawAllNull : RawProblem :=
  { number := Field.null, files := Field.null, compileFiles := Field.null,
    testFiles := Field.null, specificModules := Field.null }

/- ------------------------------------------------------------------ -/
/- Derived per-file / per-module building blocks used to state closed  -/
/- forms of the check loops.                                           -/
/- ------------------------------------------------------------------ -/

/-- The line `checkExistence` appends to `err` for one file: empty when
the file exists, the `ERR_NOEXIST` diagnostic line otherwise. -/
def missingLine (env : Env) (f : String) : String :=
  if env.pathExists ("./" ++ f) then "" else getOpError f ERR_NOEXIST ++ "\n"

/-- The comparator result the interface check obtains for one file. -/
def ifaceCmp (env : Env) (rfp : Option String) (sm : Option (List String))
    (f : String) : String :=
  env.compareInterface (ifaceRef rfp f) ("./" ++ f) sm

/-- Whether one file makes the interface check fail: its reference
artifact exists and the comparator returns a non-empty diagnostic. -/
def ifaceFailB (env : Env) (rfp : Option String) (sm : Option (List String))
    (f : String) : Bool :=
  env.pathExists (ifaceRef rfp f) && !(ifaceCmp env rfp sm f == "")

/-- The text one file contributes to `err` in the interface check. -/
def ifaceErrBlock (env : Env) (rfp : Option String) (sm : Option (List String))
    (f : String) : String :=
  if env.pathExists (ifaceRef rfp f) then
    (if ifaceCmp env rfp sm f ≠ "" then
      getOpError f ERR_BADINTERF ++ "\n" ++ ifaceCmp env rfp sm f ++ "\n"
    else "")
  else ""

/-- The text one file contributes to the interface check's console
report `toPrint`: the diagnostic line on a mismatch, the match line on
a match, nothing when the reference artifact is missing. -/
def ifacePrintBlock (env : Env) (rfp : Option String) (sm : Option (List String))
    (f : String) : String :=
  if env.pathExists (ifaceRef rfp f) then
    (if ifaceCmp env rfp sm f ≠ "" then getOpError f ERR_BADINTERF ++ "\n"
    else f ++ ": interface matches reference, good")
  else ""

/-- The comparator invocations one file contributes in the interface
check: exactly one when its reference artifact exists. -/
def ifaceEvents (env : Env) (rfp : Option String) (f : String) :
    List (String × String) :=
  if env.pathExists (ifaceRef rfp f) then [(ifaceRef rfp f, "./" ++ f)] else []

/-- The text one module contributes to `err` in the per-module
compilation loop: the `ERR_NOCOMPILE` diagnostic plus the captured
transcript when its `vcs` invocation fails, nothing otherwise. -/
def moduleBlock (env : Env) (fileList : List String) (oldDir : String)
    (m : String) : String :=
  match env.run (vcsModuleCmd m) with
  | .fail out =>
    getOpError (removeOldDir fileList oldDir) ERR_NOCOMPILE ++ "\n" ++ out ++ "\n"
  | _ => ""

/-- Whether one module's `vcs` invocation fails. -/
def moduleFails (env : Env) (m : String) : Bool :=
  match env.run (vcsModuleCmd m) with
  | .fail _ => true
  | _ => false

/- ------------------------------------------------------------------ -/
/- Helper lemmas about the sorting and string primitives.              -/
/- ------------------------------------------------------------------ -/

theorem charListLe_total (as bs : List Char) (h : charListLe as bs = false) :
    charListLe bs as = true := by
  induction as generalizing bs with
  | nil => simp [charListLe] at h
  | cons a as ih =>
    cases bs with
    | nil => simp [charListLe]
    | cons b bs =>
      simp only [charListLe] at h ⊢
      by_cases hab : a.toNat < b.toNat
      · simp [hab] at h
      · by_cases hba : b.toNat < a.toNat
        · simp [hab, hba]
        · simp [hab, hba] at h ⊢
          exact ih bs h

theorem charListLe_trans (as bs cs : List Char) (h1 : charListLe as bs = true)
    (h2 : charListLe bs cs = true) : charListLe as cs = true := by
  induction as generalizing bs cs with
  | nil => simp [charListLe]
  | cons a as ih =>
    cases bs with
    | nil => simp [charListLe] at h1
    | cons b bs =>
      cases cs with
      | nil => simp [charListLe] at h2
      | cons c cs =>
        simp only [charListLe] at h1 h2 ⊢
        rcases Nat.lt_trichotomy a.toNat b.toNat with hab | hab | hab
        · rcases Nat.lt_trichotomy b.toNat c.toNat with hbc | hbc | hbc
          · simp [Nat.lt_trans hab hbc]
          · simp [hbc ▸ hab]
          · simp [Nat.lt_asymm hbc, hbc] at h2
        · rcases Nat.lt_trichotomy b.toNat c.toNat with hbc | hbc | hbc
          · simp [hab ▸ hbc]
          · have hac : a.toNat = c.toNat := hab.trans hbc
            simp [hab, lt_self_iff_false] at h1
            simp [hbc, lt_self_iff_false] at h2
            simp [hac, lt_self_iff_false]
            exact ih bs cs h1 h2
          · simp [Nat.lt_asymm hbc, hbc] at h2
        · simp [Nat.lt_asymm hab, hab] at h1

theorem strLe_total (a b : String) (h : strLe a b = false) : strLe b a = true :=
  charListLe_total _ _ h

theorem strLe_trans {a b c : String} (h1 : strLe a b = true)
    (h2 : strLe b c = true) : strLe a c = true :=
  charListLe_trans _ _ _ h1 h2

theorem insertSorted_perm (a : String) (l : List String) :
    List.Perm (insertSorted a l) (a :: l) := by
  induction l with
  | nil => simp [insertSorted]
  | cons b bs ih =>
    simp only [insertSorted]
    by_cases hab : strLe a b = true
    · rw [if_pos hab]
    · rw [if_neg hab]
      exact (List.Perm.cons b ih).trans (List.Perm.swap a b bs)

theorem mem_insertSorted {x a : String} {l : List String} :
    x ∈ insertSorted a l ↔ x = a ∨ x ∈ l := by
  rw [(insertSorted_perm a l).mem_iff, List.mem_cons]

theorem pairwise_insertSorted (a : String) (l : List String)
    (h : l.Pairwise (fun x y => strLe x y = true)) :
    (insertSorted a l).Pairwise (fun x y => strLe x y = true) := by
  induction l with
  | nil => simp [insertSorted]
  | cons b bs ih =>
    rw [List.pairwise_cons] at h
    simp only [insertSorted]
    by_cases hab : strLe a b = true
    · rw [if_pos hab, List.pairwise_cons, List.pairwise_cons]
      refine ⟨?_, h.1, h.2⟩
      intro x hx
      rcases List.mem_cons.mp hx with hx | hx
      · exact hx ▸ hab
      · exact strLe_trans hab (h.1 x hx)
    · rw [if_neg hab, List.pairwise_cons]
      refine ⟨?_, ih h.2⟩
      intro x hx
      rcases mem_insertSorted.mp hx with hx | hx
      · have hba : strLe b a = true :=
          strLe_total a b (Bool.not_eq_true _ ▸ hab)
        exact hx ▸ hba
      · exact h.1 x hx

theorem sortList_perm (l : List String) : List.Perm (sortList l) l := by
  induction l with
  | nil => exact List.Perm.refl _
  | cons a as ih =>
    exact (insertSorted_perm a (sortList as)).trans (List.Perm.cons a ih)

theorem sortList_pairwise (l : List String) :
    (sortList l).Pairwise (fun x y => strLe x y = true) := by
  induction l with
  | nil => simp [sortList]
  | cons a as ih => exact pairwise_insertSorted a _ ih

theorem sortList_eq_self (l : List String)
    (h : l.Pairwise (fun x y => strLe x y = true)) : sortList l = l := by
  induction l with
  | nil => rfl
  | cons a as ih =>
    rw [List.pairwise_cons] at h
    simp only [sortList, ih h.2]
    cases as with
    | nil => rfl
    | cons b bs =>
      simp only [insertSorted]
      rw [if_pos (h.1 b (by simp))]

theorem pySortedSet_nodup (xs : List String) : (pySortedSet xs).Nodup :=
  (sortList_perm xs.dedup).symm.nodup (List.nodup_dedup xs)

theorem pySortedSet_pairwise (xs : List String) :
    (pySortedSet xs).Pairwise (fun x y => strLe x y = true) :=
  sortList_pairwise xs.dedup

theorem pySortedSet_idem (xs : List String) :
    pySortedSet (pySortedSet xs) = pySortedSet xs := by
  show sortList (sortList xs.dedup).dedup = sortList xs.dedup
  have h : (sortList xs.dedup).Nodup := pySortedSet_nodup xs
  rw [List.dedup_eq_self.mpr h]
  exact sortList_eq_self _ (sortList_pairwise _)

theorem mem_pySortedSet {x : String} {xs : List String} :
    x ∈ pySortedSet xs ↔ x ∈ xs :=
  (sortList_perm xs.dedup).mem_iff.trans (List.mem_dedup)

theorem strConcat_append (l1 l2 : List String) :
    strConcat (l1 ++ l2) = strConcat l1 ++ strConcat l2 := by
  induction l1 with
  | nil => simp [strConcat]
  | cons s rest ih => simp [strConcat, ih, String.append_assoc]

theorem strConcat_mem_split {l : List String} {x : String} (h : x ∈ l) :
    ∃ pre post, strConcat l = pre ++ x ++ post := by
  induction l with
  | nil => simp at h
  | cons y rest ih =>
    rcases List.mem_cons.mp h with hx | hx
    · subst hx
      exact ⟨"", strConcat rest, by simp [strConcat]⟩
    · obtain ⟨pre, post, hp⟩ := ih hx
      exact ⟨y ++ pre, post, by simp [strConcat, hp, String.append_assoc]⟩

theorem append_newline_ne_empty (a : String) : a ++ "\n" ≠ "" := by
  intro hc
  have h := congrArg String.length hc
  rw [String.length_append] at h
  have h1 : ("\n" : String).length = 1 := rfl
  have h2 : ("" : String).length = 0 := rfl
  omega

/- ------------------------------------------------------------------ -/
/- Closed forms of the three check stages.                             -/
/- ------------------------------------------------------------------ -/

theorem existLoop_eq (env : Env) (op : Operation) (fs : List String) :
    existLoop env op fs =
      { op with
        hasErrors := op.hasErrors || fs.any (fun f => !env.pathExists ("./" ++ f)),
        err := op.err ++ strConcat (fs.map (missingLine env)) } := by
  induction fs generalizing op with
  | nil => simp [existLoop, strConcat]
  | cons f fs ih =>
    simp only [existLoop]
    by_cases hf : env.pathExists ("./" ++ f) = true
    · rw [if_pos hf, ih]
      simp [missingLine, hf, strConcat]
    · rw [if_neg hf, ih]
      simp only [Bool.not_eq_true] at hf
      simp [missingLine, hf, strConcat, String.append_assoc]

theorem checkExistence_eq (op : Operation) (env : Env) (fs : List String)
    (h : op.existFiles = some fs) :
    op.checkExistence env =
      { op with
        hasErrors := op.hasErrors || fs.any (fun f => !env.pathExists ("./" ++ f)),
        err := op.err ++ strConcat (fs.map (missingLine env)) } := by
  have h1 : op.checkExistence env = existLoop env op fs := by
    simp [Operation.checkExistence, h]
  rw [h1, existLoop_eq env op fs]

theorem interfaceLoop_eq (env : Env) (op : Operation) (fs : List String) :
    interfaceLoop env op fs =
      ({ op with
         hasErrors := op.hasErrors ||
           fs.any (ifaceFailB env op.refFilePath op.specificModules),
         err := op.err ++
           strConcat (fs.map (ifaceErrBlock env op.refFilePath op.specificModules)) },
       strConcat (fs.map (ifacePrintBlock env op.refFilePath op.specificModules)),
       fs.flatMap (ifaceEvents env op.refFilePath)) := by
  induction fs generalizing op with
  | nil => simp [interfaceLoop, strConcat]
  | cons f fs ih =>
    simp only [interfaceLoop, refPathFor]
    by_cases hex : env.pathExists (ifaceRef op.refFilePath f) = true
    · rw [if_pos hex]
      by_cases hcm :
          env.compareInterface (ifaceRef op.refFilePath f) ("./" ++ f)
            op.specificModules = ""
      · rw [if_neg (by simpa [ifaceCmp] using hcm)]
        rw [ih]
        simp [ifaceFailB, ifaceErrBlock, ifacePrintBlock, ifaceEvents, ifaceCmp,
          hex, hcm, strConcat, String.append_assoc]
      · rw [if_pos (by simpa [ifaceCmp] using hcm)]
        rw [ih]
        simp [ifaceFailB, ifaceErrBlock, ifacePrintBlock, ifaceEvents, ifaceCmp,
          hex, hcm, strConcat, String.append_assoc]
    · rw [if_neg hex, ih]
      simp only [Bool.not_eq_true] at hex
      simp [ifaceFailB, ifaceErrBlock, ifacePrintBlock, ifaceEvents,
        hex, strConcat]

theorem runModules_interrupt_iff (env : Env) (fileList : List String)
    (oldDir : String) (op : Operation) (mods : List String) :
    (runModules env fileList oldDir op mods).2.2 = true ↔
      ∃ cmd ∈ (runModules env fileList oldDir op mods).2.1,
        env.run cmd = ToolOut.interrupt := by
  induction mods generalizing op with
  | nil => simp [runModules]
  | cons m ms ih =>
    simp only [runModules]
    cases hr : env.run (vcsModuleCmd m) with
    | interrupt => simp [hr]
    | fail out =>
      simp only [List.mem_cons]
      rw [ih]
      constructor
      · rintro ⟨cmd, hc, hi⟩
        exact ⟨cmd, Or.inr hc, hi⟩
      · rintro ⟨cmd, hc | hc, hi⟩
        · rw [hc, hr] at hi
          exact absurd hi (by simp)
        · exact ⟨cmd, hc, hi⟩
    | ok out =>
      simp only [List.mem_cons]
      rw [ih]
      constructor
      · rintro ⟨cmd, hc, hi⟩
        exact ⟨cmd, Or.inr hc, hi⟩
      · rintro ⟨cmd, hc | hc, hi⟩
        · rw [hc, hr] at hi
          exact absurd hi (by simp)
        · exact ⟨cmd, hc, hi⟩

theorem runModules_eq (env : Env) (fileList : List String) (oldDir : String)
    (op : Operation) (mods : List String)
    (h : ∀ m ∈ mods, env.run (vcsModuleCmd m) ≠ ToolOut.interrupt) :
    runModules env fileList oldDir op mods =
      ({ op with
         hasErrors := op.hasErrors || mods.any (moduleFails env),
         err := op.err ++ strConcat (mods.map (moduleBlock env fileList oldDir)) },
       mods.map vcsModuleCmd, false) := by
  induction mods generalizing op with
  | nil => simp [runModules, strConcat]
  | cons m ms ih =>
    simp only [runModules]
    cases hr : env.run (vcsModuleCmd m) with
    | interrupt => exact absurd hr (h m (by simp))
    | fail out =>
      have hih := ih (op.compilationErrHandler fileList oldDir out)
        (fun x hx => h x (by simp [hx]))
      simp only [hih]
      simp [Operation.compilationErrHandler, moduleFails, moduleBlock, hr,
        strConcat, String.append_assoc]
    | ok out =>
      have hih := ih op (fun x hx => h x (by simp [hx]))
      simp only [hih]
      simp [moduleFails, moduleBlock, hr, strConcat]

theorem checkCompilation_not_interrupted (op : Operation) (env : Env)
    (hni : ∀ cmd, env.run cmd ≠ ToolOut.interrupt) :
    (op.checkCompilation env).interrupted = false := by
  cases hcf : op.compileFiles with
  | none => simp [Operation.checkCompilation, hcf]
  | some fs =>
    cases hsm : op.specificModules with
    | none =>
      cases hr : env.run (vcsAllCmd (mkFileList fs env.cwd)) with
      | interrupt => exact absurd hr (hni _)
      | fail out => simp [Operation.checkCompilation, hcf, hsm, hr]
      | ok out => simp [Operation.checkCompilation, hcf, hsm, hr]
    | some mods =>
      cases hr : env.run (vloganCmd (mkFileList fs env.cwd)) with
      | interrupt => exact absurd hr (hni _)
      | fail out => simp [Operation.checkCompilation, hcf, hsm, hr]
      | ok out =>
        have hrm := runModules_eq env (mkFileList fs env.cwd) env.cwd op mods
          (fun m _ => hni _)
        simp [Operation.checkCompilation, hcf, hsm, hr, hrm]

/- ------------------------------------------------------------------ -/
/- The `do()` pipeline contract.                                       -/
/- ------------------------------------------------------------------ -/

theorem doCompileStage_spec (op2 : Operation) (env : Env)
    (hni : ∀ cmd, env.run cmd ≠ ToolOut.interrupt) (h2 : op2.hasErrors = false) :
    ((doCompileStage op2 env).out = "" ↔ (doCompileStage op2 env).op.hasErrors = false) ∧
    ((doCompileStage op2 env).op.hasErrors = true →
      (doCompileStage op2 env).out = (doCompileStage op2 env).op.err ++ "\n") ∧
    (doCompileStage op2 env).interrupted = false := by
  unfold doCompileStage
  by_cases hc : ((!op2.skipCompile) && op2.compileFiles.isSome) = true
  · rw [if_pos hc, if_neg (by simp [checkCompilation_not_interrupted op2 env hni])]
    by_cases he : (op2.checkCompilation env).op.hasErrors = true
    · rw [if_pos he]
      refine ⟨?_, fun _ => rfl, rfl⟩
      simp [he, append_newline_ne_empty]
    · rw [if_neg he]
      simp only [Bool.not_eq_true] at he
      simp [he]
  · rw [if_neg hc]
    simp [h2]

theorem doInterfaceStage_spec (op1 : Operation) (env : Env)
    (hni : ∀ cmd, env.run cmd ≠ ToolOut.interrupt) (h1 : op1.hasErrors = false) :
    ((doInterfaceStage op1 env).out = "" ↔ (doInterfaceStage op1 env).op.hasErrors = false) ∧
    ((doInterfaceStage op1 env).op.hasErrors = true →
      (doInterfaceStage op1 env).out = (doInterfaceStage op1 env).op.err ++ "\n") ∧
    (doInterfaceStage op1 env).interrupted = false := by
  unfold doInterfaceStage
  by_cases hr : op1.refFilePath.isSome = true
  · rw [if_pos hr]
    by_cases he : (op1.checkInterface env).1.hasErrors = true
    · rw [if_pos he]
      refine ⟨?_, fun _ => rfl, rfl⟩
      simp [he, append_newline_ne_empty]
    · rw [if_neg he]
      simp only [Bool.not_eq_true] at he
      exact doCompileStage_spec _ env hni he
  · rw [if_neg hr]
    exact doCompileStage_spec _ env hni h1

theorem doOp_spec (op : Operation) (env : Env)
    (hni : ∀ cmd, env.run cmd ≠ ToolOut.interrupt) (h0 : op.hasErrors = false) :
    ((op.doOp env).out = "" ↔ (op.doOp env).op.hasErrors = false) ∧
    ((op.doOp env).op.hasErrors = true →
      (op.doOp env).out = (op.doOp env).op.err ++ "\n") ∧
    (op.doOp env).interrupted = false := by
  unfold Operation.doOp
  by_cases hef : op.existFiles.isSome = true
  · rw [if_pos hef]
    by_cases he : (op.checkExistence env).hasErrors = true
    · rw [if_pos he]
      refine ⟨?_, fun _ => rfl, rfl⟩
      simp [he, append_newline_ne_empty]
    · rw [if_neg he]
      simp only [Bool.not_eq_true] at he
      exact doInterfaceStage_spec _ env hni he
  · rw [if_neg hef]
    exact doInterfaceStage_spec _ env hni h0

theorem doOpArrayLoop_eq (env : Env)
    (hni : ∀ cmd, env.run cmd ≠ ToolOut.interrupt) (ops : List Operation)
    (files : Finset String) (he : Bool) (errTot : String) :
    doOpArrayLoop env ops files he errTot =
      some (files ∪ opsFiles ops,
        he || ops.any (fun o => ((o.clearErrors).doOp env).op.hasErrors),
        errTot ++ strConcat (ops.map (opReport env))) := by
  induction ops generalizing files he errTot with
  | nil => simp [doOpArrayLoop, opsFiles, strConcat]
  | cons op rest ih =>
    have hi : ((op.clearErrors).doOp env).interrupted = false :=
      (doOp_spec (op.clearErrors) env hni rfl).2.2
    simp only [doOpArrayLoop, hi]
    by_cases hhe : ((op.clearErrors).doOp env).op.hasErrors = true
    · simp only [hhe, Bool.false_eq_true, if_false, if_true]
      rw [ih]
      simp [opsFiles, opReport, hhe, strConcat, String.append_assoc,
        Finset.union_assoc]
    · simp only [Bool.not_eq_true] at hhe
      simp only [hhe, Bool.false_eq_true, if_false]
      rw [ih]
      simp [opsFiles, opReport, hhe, strConcat, Finset.union_assoc]

theorem checkStudentLoop_he (env : Env)
    (ops : List Operation) (acc : String) (he : Bool) (out : String) (he2 : Bool)
    (h : checkStudentLoop env ops acc he = some (out, he2)) :
    he2 = (he || ops.any (fun o => ((o.clearErrors).doOp env).op.hasErrors)) := by
  induction ops generalizing acc he with
  | nil =>
    simp only [checkStudentLoop, Option.some.injEq, Prod.mk.injEq] at h
    simp [← h.2]
  | cons op rest ih =>
    simp only [checkStudentLoop] at h
    by_cases hi : ((op.clearErrors).doOp env).interrupted = true
    · rw [if_pos hi] at h
      exact absurd h (by simp)
    · rw [if_neg hi] at h
      by_cases hhe : ((op.clearErrors).doOp env).op.hasErrors = true
      · rw [if_pos hhe] at h
        have hrec := ih _ _ h
        simp [hrec, hhe]
      · rw [if_neg hhe] at h
        have hrec := ih _ _ h
        simp only [Bool.not_eq_true] at hhe
        simp [hrec, hhe]

/- ------------------------------------------------------------------ -/
/- The claims.                                                         -/
/- ------------------------------------------------------------------ -/

/-- C1: `do()` returns the empty string exactly when no check stage
recorded an error; a non-empty result is always the accumulated
diagnostics `err + "\n"`; and `doOpArray` accumulates, for each failing
problem, its diagnostics annotated with the filled header line naming
the problem number. -/
theorem c1_do_contract (op : Operation) (ops : List Operation) (env : Env)
    (hni : ∀ cmd, env.run cmd ≠ ToolOut.interrupt) (h0 : op.hasErrors = false) :
    ((op.doOp env).out = "" ↔ (op.doOp env).op.hasErrors = false) ∧
    ((op.doOp env).op.hasErrors = true →
      (op.doOp env).out = (op.doOp env).op.err ++ "\n") ∧
    doOpArray ops env =
      some (opsFiles ops,
        ops.any (fun o => ((o.clearErrors).doOp env).op.hasErrors),
        strConcat (ops.map (opReport env))) := by
  refine ⟨(doOp_spec op env hni h0).1, (doOp_spec op env hni h0).2.1, ?_⟩
  unfold doOpArray
  rw [doOpArrayLoop_eq env hni]
  simp

/-- C1 witness: the contract instantiated on a concrete operation and a
singleton batch in an environment where everything passes. -/
theorem c1_do_contract_witness :
    ((opExistA.doOp envOk).out = "" ↔ (opExistA.doOp envOk).op.hasErrors = false) ∧
    ((opExistA.doOp envOk).op.hasErrors = true →
      (opExistA.doOp envOk).out = (opExistA.doOp envOk).op.err ++ "\n") ∧
    doOpArray [opExistA] envOk =
      some (opsFiles [opExistA],
        [opExistA].any (fun o => ((o.clearErrors).doOp envOk).op.hasErrors),
        strConcat ([opExistA].map (opReport envOk))) :=
  c1_do_contract opExistA [opExistA] envOk (fun cmd => by simp [envOk]) rfl

/-- C2: when some exist file is missing, `do()` returns right after the
existence stage: the resulting state is exactly the existence check's
output, no toolchain command is ever run for the problem, and every
missing file of the stage has its `ERR_NOEXIST` diagnostic inside the
returned text. -/
theorem c2_missing_file_early_exit (op : Operation) (env : Env)
    (fs : List String) (f : String) (hfs : op.existFiles = some fs) (hf : f ∈ fs)
    (hmiss : env.pathExists ("./" ++ f) = false) (h0 : op.hasErrors = false) :
    (op.doOp env).events = [] ∧
    (op.doOp env).op = op.checkExistence env ∧
    (∀ g ∈ fs, env.pathExists ("./" ++ g) = false →
      ∃ pre post,
        (op.doOp env).out = pre ++ (getOpError g ERR_NOEXIST ++ "\n") ++ post) := by
  have hex : (op.checkExistence env).hasErrors = true := by
    rw [checkExistence_eq op env fs hfs]
    simp only [h0, Bool.false_or]
    exact List.any_eq_true.mpr ⟨f, hf, by simp [hmiss]⟩
  have hds : op.doOp env =
      { out := (op.checkExistence env).err ++ "\n", op := op.checkExistence env,
        events := [], interrupted := false } := by
    unfold Operation.doOp
    rw [if_pos (by simp [hfs]), if_pos hex]
  refine ⟨by rw [hds], by rw [hds], ?_⟩
  intro g hg hgmiss
  have hmem : missingLine env g ∈ fs.map (missingLine env) :=
    List.mem_map_of_mem _ hg
  obtain ⟨pre, post, hsplit⟩ := strConcat_mem_split hmem
  have hline : missingLine env g = getOpError g ERR_NOEXIST ++ "\n" := by
    simp [missingLine, hgmiss]
  refine ⟨op.err ++ pre, post ++ "\n", ?_⟩
  rw [hds]
  show (op.checkExistence env).err ++ "\n" = _
  rw [checkExistence_eq op env fs hfs]
  show (op.err ++ strConcat (fs.map (missingLine env))) ++ "\n" = _
  rw [hsplit, hline]
  simp [String.append_assoc]

/-- C2 witness: a single required file `a.sv` missing from the student
directory. -/
theorem c2_missing_file_early_exit_witness :
    (opExistA.doOp envMissingA).events = [] ∧
    (opExistA.doOp envMissingA).op = opExistA.checkExistence envMissingA ∧
    (∃ pre post, (opExistA.doOp envMissingA).out =
      pre ++ (getOpError "a.sv" ERR_NOEXIST ++ "\n") ++ post) :=
  have h := c2_missing_file_early_exit opExistA envMissingA ["a.sv"] "a.sv" rfl
    (by simp) (by decide) rfl
  ⟨h.1, h.2.1, h.2.2 "a.sv" (by simp) (by decide)⟩

/-- C3 fails as stated: a raw record whose `number` key is absent makes
`parseProblem` raise `KeyError` instead of tolerating the absence. -/
theorem c3_absent_key_raises :
    (Operation.init none false false).parseProblem rawAbsentNumber envOk =
      Except.error "KeyError" := rfl

/-- C3 amended: all five keys must be present; a key that is present
with a `null` value raises nothing and leaves the corresponding
descriptor field unset (an absent key raises `KeyError`). -/
theorem c3_null_fields_unset (p : RawProblem) (env : Env) (rfp : Option String)
    (sc si : Bool)
    (h1 : p.number ≠ Field.absent) (h2 : p.files ≠ Field.absent)
    (h3 : p.compileFiles ≠ Field.absent) (h4 : p.testFiles ≠ Field.absent)
    (h5 : p.specificModules ≠ Field.absent) :
    ∃ op', (Operation.init rfp sc si).parseProblem p env = Except.ok op' ∧
      (p.number = Field.null → op'.number = none) ∧
      (p.files = Field.null → op'.existFiles = none) ∧
      (p.compileFiles = Field.null → op'.compileFiles = none) ∧
      (p.testFiles = Field.null → op'.testFiles = none) ∧
      (p.specificModules = Field.null → op'.specificModules = none) := by
  obtain ⟨n, f, c, t, s⟩ := p
  cases n <;> cases f <;> cases c <;> cases t <;> cases s <;>
    first
    | exact absurd rfl h1
    | exact absurd rfl h2
    | exact absurd rfl h3
    | exact absurd rfl h4
    | exact absurd rfl h5
    | exact ⟨_, rfl,
        (by intro h; first | rfl | exact Field.noConfusion h),
        (by intro h; first | rfl | exact Field.noConfusion h),
        (by intro h; first | rfl | exact Field.noConfusion h),
        (by intro h; first | rfl | exact Field.noConfusion h),
        (by intro h; first | rfl | exact Field.noConfusion h)⟩

/-- C3 witness: the all-`null` record parses successfully and leaves
every descriptor field unset. -/
theorem c3_null_fields_unset_witness :
    ∃ op', (Operation.init none false false).parseProblem rawAllNull envOk =
        Except.ok op' ∧
      (rawAllNull.number = Field.null → op'.number = none) ∧
      (rawAllNull.files = Field.null → op'.existFiles = none) ∧
      (rawAllNull.compileFiles = Field.null → op'.compileFiles = none) ∧
      (rawAllNull.testFiles = Field.null → op'.testFiles = none) ∧
      (rawAllNull.specificModules = Field.null → op'.specificModules = none) :=
  c3_null_fields_unset rawAllNull envOk none false false
    (by simp [rawAllNull]) (by simp [rawAllNull]) (by simp [rawAllNull])
    (by simp [rawAllNull]) (by simp [rawAllNull])

/-- C4 fails as stated: with the comparator mismatching on `a.sv` and
matching on `b.sv`, the interface check still compares the later file
`b.sv` (two comparator invocations) and still reports its match line
after the failure. -/
theorem c4_reports_after_failure :
    (opIfaceTwo.checkInterface envIfaceBad).2.2 =
      [("ref/a_ref.sv", "./a.sv"), ("ref/b_ref.sv", "./b.sv")] ∧
    (opIfaceTwo.checkInterface envIfaceBad).2.1 =
      (getOpError "a.sv" ERR_BADINTERF ++ "\n") ++
        (("b.sv" ++ ": interface matches reference, good") ++ "") := by
  decide

/-- C4 amended: the interface check never stops early: it compares every
file whose reference artifact exists (silently skipping the others,
which cause no error), accumulates the diagnostics of all mismatching
files into `err`, sets `hasErrors` as soon as any file mismatches, and
reports a line for every compared file, including those after a
failure. -/
theorem c4_interface_processes_all (op : Operation) (env : Env)
    (fs : List String) (n : Int) (hfs : op.existFiles = some fs)
    (hn : op.number = some n) (h0 : 0 ≤ n) :
    op.checkInterface env =
      ({ op with
         hasErrors := op.hasErrors ||
           fs.any (ifaceFailB env op.refFilePath op.specificModules),
         err := op.err ++
           strConcat (fs.map (ifaceErrBlock env op.refFilePath op.specificModules)) },
       strConcat (fs.map (ifacePrintBlock env op.refFilePath op.specificModules)),
       fs.flatMap (ifaceEvents env op.refFilePath)) := by
  have h1 : op.checkInterface env = interfaceLoop env op fs := by
    rw [Operation.checkInterface,
      if_neg (by rw [hn]; simp only [Option.getD_some]; omega)]
    rw [hfs]
  rw [h1, interfaceLoop_eq]

/-- C4 witness: the amended characterization instantiated on the
two-file mismatch scenario. -/
theorem c4_interface_processes_all_witness :
    opIfaceTwo.checkInterface envIfaceBad =
      ({ opIfaceTwo with
         hasErrors := opIfaceTwo.hasErrors ||
           ["a.sv", "b.sv"].any
             (ifaceFailB envIfaceBad opIfaceTwo.refFilePath opIfaceTwo.specificModules),
         err := opIfaceTwo.err ++
           strConcat (["a.sv", "b.sv"].map
             (ifaceErrBlock envIfaceBad opIfaceTwo.refFilePath opIfaceTwo.specificModules)) },
       strConcat (["a.sv", "b.sv"].map
         (ifacePrintBlock envIfaceBad opIfaceTwo.refFilePath opIfaceTwo.specificModules)),
       ["a.sv", "b.sv"].flatMap (ifaceEvents envIfaceBad opIfaceTwo.refFilePath)) :=
  c4_interface_processes_all opIfaceTwo envIfaceBad ["a.sv", "b.sv"] 1 rfl rfl
    (by decide)

theorem expand_starFree (env : Env) (ys : List String)
    (h : ∀ y ∈ ys, hasStar y = false) : ys.flatMap (expandEntry env) = ys := by
  induction ys with
  | nil => rfl
  | cons y ys ih =>
    have hy : hasStar y = false := h y (by simp)
    simp only [List.flatMap_cons, expandEntry, hy, Bool.false_eq_true, if_false]
    rw [ih (fun x hx => h x (by simp [hx]))]
    rfl

theorem resolved_starFree (env : Env)
    (hg : ∀ p, ∀ r ∈ env.globMatch p, hasStar r = false) (fs : List String) :
    ∀ y ∈ pySortedSet (fs.flatMap (expandEntry env)), hasStar y = false := by
  intro y hy
  rw [mem_pySortedSet, List.mem_flatMap] at hy
  obtain ⟨f, hf, hyf⟩ := hy
  by_cases hs : hasStar f = true
  · simp only [expandEntry, hs, if_true] at hyf
    exact hg f y hyf
  · simp only [expandEntry, hs, Bool.false_eq_true, if_false,
      List.mem_singleton] at hyf
    simp only [Bool.not_eq_true] at hs
    exact hyf ▸ hs

theorem resolved_any_star_false (env : Env)
    (hg : ∀ p, ∀ r ∈ env.globMatch p, hasStar r = false) (fs : List String) :
    (pySortedSet (fs.flatMap (expandEntry env))).any hasStar = false := by
  rw [List.any_eq_false]
  intro x hx
  simp [resolved_starFree env hg fs x hx]

theorem resolved_fixpoint (env : Env)
    (hg : ∀ p, ∀ r ∈ env.globMatch p, hasStar r = false) (fs : List String) :
    pySortedSet ((pySortedSet (fs.flatMap (expandEntry env))).flatMap
        (expandEntry env)) =
      pySortedSet (fs.flatMap (expandEntry env)) := by
  rw [expand_starFree env _ (resolved_starFree env hg fs), pySortedSet_idem]

/-- C5: wildcard resolution is idempotent: as long as glob results never
themselves contain the `*` marker, re-running `checkWildcard` on an
already-resolved operation changes nothing: the exist and compile lists
stay the same sorted duplicate-free wildcard-free lists and the
`useWildcard` flag is unchanged. -/
theorem c5_checkWildcard_idem (op : Operation) (env : Env)
    (hg : ∀ p, ∀ r ∈ env.globMatch p, hasStar r = false) :
    (op.checkWildcard env).checkWildcard env = op.checkWildcard env := by
  cases hef : op.existFiles with
  | none =>
    cases hcf : op.compileFiles with
    | none => simp [Operation.checkWildcard, hef, hcf]
    | some cs =>
      simp [Operation.checkWildcard, hef, hcf, resolved_fixpoint env hg]
  | some fs =>
    cases hcf : op.compileFiles with
    | none =>
      simp [Operation.checkWildcard, hef, hcf, resolved_fixpoint env hg,
        resolved_any_star_false env hg]
    | some cs =>
      simp [Operation.checkWildcard, hef, hcf, resolved_fixpoint env hg,
        resolved_any_star_false env hg]

/-- C5 witness: a descriptor mixing glob patterns and literals resolved
against a glob function matching two files. -/
theorem c5_checkWildcard_idem_witness :
    (opGlobOp.checkWildcard envGlob).checkWildcard envGlob =
      opGlobOp.checkWildcard envGlob :=
  c5_checkWildcard_idem opGlobOp envGlob (by
    intro p r hr
    simp only [envGlob, envOk] at hr
    by_cases hp : (p == "*.sv") = true
    · rw [if_pos hp] at hr
      rcases List.mem_cons.mp hr with h | h
      · rw [h]; rfl
      · rw [List.mem_singleton.mp h]; rfl
    · rw [if_neg hp] at hr
      exact absurd hr (by simp))

/-- C6: starting from a freshly constructed operation (whose flag is
false), `checkWildcard` ends with `useWildcard = true` exactly when some
`existFiles` entry contains the `*` marker; wildcard entries in
`compileFiles` never set the flag. -/
theorem c6_useWildcard_iff (op : Operation) (env : Env)
    (h0 : op.useWildcard = false) :
    (op.checkWildcard env).useWildcard = true ↔
      ∃ fs, op.existFiles = some fs ∧ ∃ f ∈ fs, hasStar f = true := by
  cases hef : op.existFiles with
  | none =>
    cases hcf : op.compileFiles with
    | none => simp [Operation.checkWildcard, hef, hcf, h0]
    | some cs => simp [Operation.checkWildcard, hef, hcf, h0]
  | some fs =>
    cases hcf : op.compileFiles with
    | none =>
      simp [Operation.checkWildcard, hef, hcf, h0, List.any_eq_true]
    | some cs =>
      simp [Operation.checkWildcard, hef, hcf, h0, List.any_eq_true]

/-- C6 witness: the flag iff instantiated on the wildcard-bearing
descriptor. -/
theorem c6_useWildcard_iff_witness :
    (opGlobOp.checkWildcard envGlob).useWildcard = true ↔
      ∃ fs, opGlobOp.existFiles = some fs ∧ ∃ f ∈ fs, hasStar f = true :=
  c6_useWildcard_iff opGlobOp envGlob rfl

/-- C7: in per-module mode, a failing `vlogan` analysis pass aborts the
stage at once with the `ERR_NOCOMPILE` diagnostic and its captured
transcript — the analysis command is the only one run, so no per-module
elaboration is attempted; when analysis succeeds there is exactly one
`vcs` invocation per named module and the diagnostics of all failing
modules accumulate into the same `err`. -/
theorem c7_specific_modules (op : Operation) (env : Env) (fs mods : List String)
    (hcf : op.compileFiles = some fs) (hm : op.specificModules = some mods) :
    (∀ out, env.run (vloganCmd (mkFileList fs env.cwd)) = ToolOut.fail out →
      op.checkCompilation env =
        { op := { op with
            hasErrors := true,
            err := op.err ++
              getOpError (removeOldDir (mkFileList fs env.cwd) env.cwd)
                ERR_NOCOMPILE ++ "\n" ++ out ++ "\n" },
          events := [vloganCmd (mkFileList fs env.cwd)], finalCwd := env.cwd,
          tempRemoved := true, interrupted := false }) ∧
    (∀ out, env.run (vloganCmd (mkFileList fs env.cwd)) = ToolOut.ok out →
      (∀ m ∈ mods, env.run (vcsModuleCmd m) ≠ ToolOut.interrupt) →
      op.checkCompilation env =
        { op := { op with
            hasErrors := op.hasErrors || mods.any (moduleFails env),
            err := op.err ++
              strConcat (mods.map (moduleBlock env (mkFileList fs env.cwd) env.cwd)) },
          events := vloganCmd (mkFileList fs env.cwd) :: mods.map vcsModuleCmd,
          finalCwd := env.cwd, tempRemoved := true, interrupted := false }) := by
  constructor
  · intro out hout
    simp [Operation.checkCompilation, Operation.compilationErrHandler, hcf, hm, hout]
  · intro out hout hmods
    have hrm := runModules_eq env (mkFileList fs env.cwd) env.cwd op mods hmods
    simp [Operation.checkCompilation, hcf, hm, hout, hrm]

/-- C7 witness: analysis succeeds and both named modules fail to
elaborate; both failures accumulate and both `vcs` commands run. -/
theorem c7_specific_modules_witness :
    opModules.checkCompilation envVcsFails =
      { op := { opModules with
          hasErrors := opModules.hasErrors || ["top", "alu"].any (moduleFails envVcsFails),
          err := opModules.err ++
            strConcat (["top", "alu"].map
              (moduleBlock envVcsFails (mkFileList ["x.sv"] envVcsFails.cwd)
                envVcsFails.cwd)) },
        events := vloganCmd (mkFileList ["x.sv"] envVcsFails.cwd) ::
          ["top", "alu"].map vcsModuleCmd,
        finalCwd := envVcsFails.cwd, tempRemoved := true, interrupted := false } :=
  (c7_specific_modules opModules envVcsFails ["x.sv"] ["top", "alu"] rfl rfl).2
    "" (by decide) (by decide)

/-- C8: a negative problem number makes the interface stage a no-op in
every environment: the operation is returned unchanged (no diagnostics,
`hasErrors` untouched), nothing is printed, and the comparator is never
invoked, regardless of which reference artifacts exist. -/
theorem c8_negative_skips_interface (op : Operation) (env : Env) (n : Int)
    (hn : op.number = some n) (hneg : n < 0) :
    op.checkInterface env = (op, "", []) := by
  rw [Operation.checkInterface, if_pos (by rw [hn]; simpa using hneg)]

/-- C8 witness: the lab problem (number `-1`) with a configured
reference root and an environment where every reference exists. -/
theorem c8_negative_skips_interface_witness :
    opLab.checkInterface envOk = (opLab, "", []) :=
  c8_negative_skips_interface opLab envOk (-1) rfl (by decide)

/-- C9: after `checkStudent` completes, the aggregate failure flag is
exactly "some problem's run failed", `errors.log` is written if and
only if that flag is set, and the log file exists afterwards exactly
when the flag is set — in particular a stale log is removed when every
problem passes. -/
theorem c9_errlog_iff_failure (studentDir : String) (ops : List Operation)
    (hwNum : String) (env : Env) (errLogExists : Bool) (res : StudentCheck)
    (h : checkStudent studentDir ops hwNum env errLogExists = some res) :
    res.hasAnyErrors = ops.any (fun o => ((o.clearErrors).doOp env).op.hasErrors) ∧
    ((∃ c, res.logAction = LogAction.write c) ↔ res.hasAnyErrors = true) ∧
    errLogAfter errLogExists res.logAction = res.hasAnyErrors := by
  unfold checkStudent at h
  cases hcl : checkStudentLoop env ops (getOutputHeader studentDir hwNum) false with
  | none =>
    rw [hcl] at h
    exact absurd h (by simp)
  | some p =>
    obtain ⟨out, heB⟩ := p
    rw [hcl] at h
    simp only [Option.some.injEq] at h
    have hB := checkStudentLoop_he env ops _ _ _ _ hcl
    refine ⟨?_, ?_, ?_⟩
    · rw [← h]
      simpa using hB
    · rw [← h]
      cases heB <;> cases errLogExists <;> simp
    · rw [← h]
      cases heB <;> cases errLogExists <;> simp [errLogAfter]

/-- C9 witness: an empty operation array yields no failures, and with no
stale log present nothing is written or removed. -/
theorem c9_errlog_iff_failure_witness :
    (StudentCheck.mk false (getOutputHeader "student1" "hw1")
        LogAction.keep).hasAnyErrors =
      ([] : List Operation).any
        (fun o => ((o.clearErrors).doOp envOk).op.hasErrors) ∧
    ((∃ c, (StudentCheck.mk false (getOutputHeader "student1" "hw1")
        LogAction.keep).logAction = LogAction.write c) ↔
      (StudentCheck.mk false (getOutputHeader "student1" "hw1")
        LogAction.keep).hasAnyErrors = true) ∧
    errLogAfter false (StudentCheck.mk false (getOutputHeader "student1" "hw1")
        LogAction.keep).logAction =
      (StudentCheck.mk false (getOutputHeader "student1" "hw1")
        LogAction.keep).hasAnyErrors :=
  c9_errlog_iff_failure "student1" [] "hw1" envOk false
    (StudentCheck.mk false (getOutputHeader "student1" "hw1") LogAction.keep) rfl

/-- C10: `checkCompilation` ends with the original working directory
restored and the temporary build directory removed on every exit path,
and it propagates an interrupt exactly when one of the commands it ran
was interrupted — an interrupt is never swallowed into a normal
return. -/
theorem c10_compilation_cleanup (op : Operation) (env : Env) (fs : List String)
    (hcf : op.compileFiles = some fs) :
    (op.checkCompilation env).finalCwd = env.cwd ∧
    (op.checkCompilation env).tempRemoved = true ∧
    ((op.checkCompilation env).interrupted = true ↔
      ∃ cmd ∈ (op.checkCompilation env).events, env.run cmd = ToolOut.interrupt) := by
  cases hsm : op.specificModules with
  | none =>
    cases hr : env.run (vcsAllCmd (mkFileList fs env.cwd)) with
    | interrupt => simp [Operation.checkCompilation, hcf, hsm, hr]
    | fail out => simp [Operation.checkCompilation, hcf, hsm, hr]
    | ok out => simp [Operation.checkCompilation, hcf, hsm, hr]
  | some mods =>
    cases hr : env.run (vloganCmd (mkFileList fs env.cwd)) with
    | interrupt => simp [Operation.checkCompilation, hcf, hsm, hr]
    | fail out => simp [Operation.checkCompilation, hcf, hsm, hr]
    | ok out =>
      have hiff := runModules_interrupt_iff env (mkFileList fs env.cwd) env.cwd op mods
      simp only [Operation.checkCompilation, hcf, hsm, hr]
      refine ⟨by trivial, by trivial, ?_⟩
      rw [hiff]
      constructor
      · rintro ⟨cmd, hc, hi⟩
        exact ⟨cmd, List.mem_cons_of_mem _ hc, hi⟩
      · rintro ⟨cmd, hc, hi⟩
        rcases List.mem_cons.mp hc with hc | hc
        · rw [hc, hr] at hi
          exact absurd hi (by simp)
        · exact ⟨cmd, hc, hi⟩

/-- C10 witness: the cleanup guarantees instantiated on the per-module
descriptor in the all-succeeding environment. -/
theorem c10_compilation_cleanup_witness :
    (opModules.checkCompilation envOk).finalCwd = envOk.cwd ∧
    (opModules.checkCompilation envOk).tempRemoved = true ∧
    ((opModules.checkCompilation envOk).interrupted = true ↔
      ∃ cmd ∈ (opModules.checkCompilation envOk).events,
        envOk.run cmd = ToolOut.interrupt) :=
  c10_compilation_cleanup opModules envOk ["x.sv"] rfl

end Handin240
